import Mathlib

/-!
Shallow embedding of the zasm toolchain core (repository albertexye/zasm):
the shared instruction model (`zasm.c` / `zasm.h`), the assembler
(`zasmc.c` / `zasmc.h`), the disassembler's decoder (`zasmd.c`) and the
virtual machine (`zasms.c` / `zasms.h`).

Machine integers are modelled as `Nat` with explicit `% 256` (resp. `% 16`)
at the points where the C types force a truncation; the two 4-bit C
bit-fields (`ZA_LdiArgs_T.i` and `ZA_Args_T.imm`) are modelled as `Fin 16`,
which is exactly the set of values the bit-field can hold.
-/

set_option maxRecDepth 4000

/-- Operation codes, `ZA_Op_E` in `zasm.h` (`ZA_OP_MOV` .. `ZA_OP_RST`). -/
inductive ZA_Op where
  | mov | ldi | jez | jnz | jni | hlt | rst
deriving DecidableEq, Repr

/-- A decoded/parsed instruction, `ZA_Inst_T` in `zasm.h`: a tag (`ZA_Op_E`)
plus the argument shape of that operation (the union `ZA_Args_T`).
Register arguments are C enum values and may in principle lie outside
`0..13`, so they are plain `Nat`; the 4-bit immediates `ldi.i` and `imm`
are `uint8_t i : 4` bit-fields in C, hence `Fin 16` here. -/
inductive ZA_Inst where
  | mov (r1 r2 : Nat)
  | ldi (r : Nat) (i : Fin 16)
  | jez (jmp : Nat)
  | jnz (jmp : Nat)
  | jni (imm : Fin 16)
  | hlt
  | rst
deriving DecidableEq, Repr

/-- `ZA_checkInst` from `zasm.c` (lines 31-52): MOV needs `r1 <= ZA_REG_N`
(= 6) and `r2 <= ZA_REG_Z` (= 13); LDI needs `r <= ZA_REG_N`; JEZ/JNZ need
`jmp <= ZA_REG_Z`; JNI/HLT/RST are always valid. -/
def ZA_checkInst : ZA_Inst → Bool
  | .mov r1 r2 => r1 ≤ 6 && r2 ≤ 13
  | .ldi r _ => r ≤ 6
  | .jez jmp => jmp ≤ 13
  | .jnz jmp => jmp ≤ 13
  | .jni _ => true
  | .hlt => true
  | .rst => true

/-- Build a `Fin 16` from the low nibble of a byte (`code & 0b1111` in C,
which equals `code % 16`). -/
def lowNibble (code : Nat) : Fin 16 := ⟨code % 16, Nat.mod_lt _ (by norm_num)⟩

/-- `parseI` from `zasmd.c` (lines 46-59): a byte with the top bit set is
JNI when its upper nibble is `0b1111`, else LDI with register bits 6-4
(`(code >> 4) & 0b111` = `(code >>> 4) % 8`) and immediate bits 3-0. -/
def ZD_parseI (code : Nat) : ZA_Inst :=
  if code >>> 4 = 15 then .jni (lowNibble code)
  else .ldi ((code >>> 4) % 8) (lowNibble code)

/-- `parseM` from `zasmd.c` (lines 61-74): a byte with the top bit clear and
low nibble `< 0b1110` is MOV (high nibble = destination, low nibble =
source) unless the high nibble is 7, in which case it is JNZ on the low
nibble. -/
def ZD_parseM (code : Nat) : ZA_Inst :=
  if code >>> 4 ≠ 7 then .mov (code >>> 4) (code % 16)
  else .jnz (code % 16)

/-- `ZD_parse` from `zasmd.c` (lines 76-93), the shared decoder: top bit set
→ `parseI`; low nibble `< 0b1110` → `parseM`; the two reserved literals
`0b01101111` → HLT and `0b01111111` → RST; anything else is JEZ whose 4-bit
register code is `((code & 1) << 3) | (code >> 4)`. Intended for byte
arguments (`code < 256`). -/
def ZD_parse (code : Nat) : ZA_Inst :=
  if code >>> 7 ≠ 0 then ZD_parseI code
  else if code % 16 < 14 then ZD_parseM code
  else if code = 0b01101111 then .hlt
  else if code = 0b01111111 then .rst
  else .jez ((code % 2) <<< 3 ||| (code >>> 4))

/-- Error codes of the assembler, `ZC_Err_E` in `zasmc.h`. (`ZC_ERR_STM`,
the wrapped stream failure, cannot arise over the pure list-backed stream
model used here and is omitted.) -/
inductive ZC_ErrE where
  | OP | REG | IMM_BASE | IMM_DIGIT | IMM_LEN | IMM_OVERFLOW
  | INVAL_CHAR | TOKEN_LEN | LINE_LEN | INST_FMT | RO_REG
deriving DecidableEq, Repr

/-- `ZC_generate` from `zasmc.c` (lines 266-293): maps an instruction to its
byte, rejecting a MOV/LDI destination above `ZA_REG_N` (= 6) with
`ZC_ERR_RO_REG`.  The C `assert`s (no-ops in release builds) are not
modelled; the arithmetic is the C shift/or expressions. -/
def ZC_generate : ZA_Inst → Except ZC_ErrE Nat
  | .mov r1 r2 =>
      if r1 > 6 then .error .RO_REG
      else .ok ((r1 <<< 4) ||| r2)
  | .ldi r i =>
      if r > 6 then .error .RO_REG
      else .ok (0b10000000 ||| (r <<< 4) ||| i.val)
  | .jez jmp => .ok (0b00001110 ||| (jmp >>> 3) ||| ((jmp % 8) <<< 4))
  | .jnz jmp => .ok (0b01110000 ||| jmp)
  | .jni imm => .ok (0b11110000 ||| imm.val)
  | .hlt => .ok 0b01101111
  | .rst => .ok 0b01111111

instance {ε α : Type} [DecidableEq ε] [DecidableEq α] :
    DecidableEq (Except ε α) := fun x y =>
  match x, y with
  | .ok a, .ok b => decidable_of_iff (a = b) (by simp)
  | .error a, .error b => decidable_of_iff (a = b) (by simp)
  | .ok _, .error _ => .isFalse (by simp)
  | .error _, .ok _ => .isFalse (by simp)

/-- C1: for every instruction that `ZA_checkInst` accepts, `ZC_generate`
succeeds and `ZD_parse` of the generated byte returns the instruction
itself (`decode(encode(I)) == I`). -/
theorem C1_decode_encode_roundtrip (inst : ZA_Inst)
    (h : ZA_checkInst inst = true) :
    (ZC_generate inst).map ZD_parse = .ok inst := by
  cases inst with
  | mov r1 r2 =>
      simp only [ZA_checkInst, Bool.and_eq_true, decide_eq_true_eq] at h
      obtain ⟨h1, h2⟩ := h
      interval_cases r1 <;> interval_cases r2 <;> decide
  | ldi r i =>
      simp only [ZA_checkInst, decide_eq_true_eq] at h
      interval_cases r <;> (revert i; decide)
  | jez jmp =>
      simp only [ZA_checkInst, decide_eq_true_eq] at h
      interval_cases jmp <;> decide
  | jnz jmp =>
      simp only [ZA_checkInst, decide_eq_true_eq] at h
      interval_cases jmp <;> decide
  | jni imm => revert imm; decide
  | hlt => decide
  | rst => decide

/-- Witness for C1 at the concrete valid instruction `mov m z`
(destination 3 = Memory, source 13 = Zero). -/
theorem C1_decode_encode_roundtrip_witness :
    ZA_checkInst (.mov 3 13) = true ∧
      (ZC_generate (.mov 3 13)).map ZD_parse = .ok (.mov 3 13) :=
  ⟨by decide, C1_decode_encode_roundtrip (.mov 3 13) (by decide)⟩

/-- C2: for every byte whose decoding is valid per `ZA_checkInst`,
re-encoding the decoded instruction yields exactly that byte
(`encode(decode(b)) == b`). -/
theorem C2_encode_decode_roundtrip (b : Nat) (hb : b < 256)
    (h : ZA_checkInst (ZD_parse b) = true) :
    ZC_generate (ZD_parse b) = .ok b := by
  have key : ∀ c < 256, ZA_checkInst (ZD_parse c) = true →
      ZC_generate (ZD_parse c) = .ok c := by decide
  exact key b hb h

/-- Witness for C2 at the concrete byte `0x0E` (JEZ with register code 0). -/
theorem C2_encode_decode_roundtrip_witness :
    (0x0E : Nat) < 256 ∧ ZA_checkInst (ZD_parse 0x0E) = true ∧
      ZC_generate (ZD_parse 0x0E) = .ok 0x0E :=
  ⟨by decide, by decide, C2_encode_decode_roundtrip 0x0E (by decide) (by decide)⟩

/-- Counterexample to C6 as stated: there is NO byte whose decoded
instruction fails `ZA_checkInst` — in particular no byte decodes to a JEZ
with reassembled register code 14 or 15 (those two bit patterns are exactly
the reserved HLT and RST literals `0x6F` and `0x7F`). -/
theorem C6_no_invalid_decode_counterexample :
    ¬ ∃ b < 256, ZA_checkInst (ZD_parse b) = false := by decide

/-- C6 amended: the decoder is total over all 256 byte values (in this
embedding `ZD_parse` is a total function), and every decoded instruction is
valid per `ZA_checkInst`; no byte decodes to an invalid instruction. -/
theorem C6_decode_total_always_valid (b : Nat) (hb : b < 256) :
    ZA_checkInst (ZD_parse b) = true := by
  have key : ∀ c < 256, ZA_checkInst (ZD_parse c) = true := by decide
  exact key b hb

/-- Witness for the amended C6 at the concrete byte `0x7E`
(JEZ with register code 7 = ProgramCounter). -/
theorem C6_decode_total_always_valid_witness :
    (0x7E : Nat) < 256 ∧ ZA_checkInst (ZD_parse 0x7E) = true ∧
      ZD_parse 0x7E = .jez 7 :=
  ⟨by decide, C6_decode_total_always_valid 0x7E (by decide), by decide⟩

/-- The NUL byte, value of unwritten cells of the zero-initialised C char
arrays (`char str[7]` in `ZC_Token_T`). -/
def nulChar : Char := Char.ofNat 0

/-- Read `s[k]` of a C string modelled as the list of its characters
followed by NUL padding: positions past the end read as NUL. -/
def strAt (s : List Char) (k : Nat) : Char := s.getD k nulChar

/-- `ZC_toLower` from `zasmc.c`: fold `A`..`Z` to lowercase
(`c + 'a' - 'A'`, i.e. `+ 32`). -/
def ZC_toLower (c : Char) : Char :=
  if 'A' ≤ c ∧ c ≤ 'Z' then Char.ofNat (c.toNat + 32) else c

/-- `ZC_isWhitespace` from `zasmc.c`: space, tab, CR, FF (12), VT (11). -/
def ZC_isWhitespace (c : Char) : Bool :=
  c = ' ' || c = '\t' || c = '\r' || c = Char.ofNat 12 || c = Char.ofNat 11

/-- A token, `ZC_Token_T` in `zasmc.h`: the `char str[7]` buffer is
modelled as the list of characters actually stored (at most 6, the rest of
the buffer stays NUL), plus the end-of-line / end-of-file flags. -/
structure ZC_Token where
  str : List Char
  eol : Bool
  eof : Bool
deriving DecidableEq, Repr

/-- Build a token from a string literal (test helper). -/
def mkTok (s : String) (eol eof : Bool) : ZC_Token := ⟨s.toList, eol, eof⟩

/-- `ZC_parseHex` from `zasmc.c` (lines 54-65): exactly one hex digit. -/
def ZC_parseHex (s : List Char) : Except ZC_ErrE Nat :=
  if strAt s 1 ≠ nulChar then .error .IMM_LEN
  else
    let c := strAt s 0
    if '0' ≤ c ∧ c ≤ '9' then .ok (c.toNat - '0'.toNat)
    else if 'A' ≤ c ∧ c ≤ 'F' then .ok (c.toNat - 'A'.toNat + 10)
    else if 'a' ≤ c ∧ c ≤ 'f' then .ok (c.toNat - 'a'.toNat + 10)
    else .error .IMM_DIGIT

/-- The loop of `ZC_parseBinary` (`for (i = 0; i < 4; ++i)`), run on the
four cells `s[0] .. s[3]`: stop with the accumulator on NUL, reject a
non-binary digit, otherwise `ret |= c - '0'; ret <<= 1;` — note the shift
happens AFTER the or, also on the final digit. -/
def ZC_parseBinLoop : Nat → List Char → Except ZC_ErrE Nat
  | ret, [] => .ok ret
  | ret, c :: rest =>
      if c = nulChar then .ok ret
      else if c ≠ '0' ∧ c ≠ '1' then .error .IMM_DIGIT
      else ZC_parseBinLoop ((ret ||| (c.toNat - '0'.toNat)) <<< 1) rest

/-- `ZC_parseBinary` from `zasmc.c` (lines 67-84): empty or longer than 4
digits is a length error, else the loop above. -/
def ZC_parseBinary (s : List Char) : Except ZC_ErrE Nat :=
  if strAt s 0 = nulChar ∨ strAt s 4 ≠ nulChar then .error .IMM_LEN
  else ZC_parseBinLoop 0 [strAt s 0, strAt s 1, strAt s 2, strAt s 3]

/-- `ZC_parseDecimal` from `zasmc.c` (lines 86-106): 1-2 digits, no leading
zero, value at most 15 (`ZC_ERR_IMM_OVERFLOW` above that). -/
def ZC_parseDecimal (s : List Char) : Except ZC_ErrE Nat :=
  let c0 := strAt s 0
  if c0 < '1' ∨ '9' < c0 then .error .IMM_DIGIT
  else if strAt s 1 = nulChar then .ok (c0.toNat - '0'.toNat)
  else
    let c1 := strAt s 1
    if c1 < '0' ∨ '9' < c1 then .error .IMM_DIGIT
    else if strAt s 2 ≠ nulChar then .error .IMM_LEN
    else
      let ret := (c0.toNat - '0'.toNat) * 10 + (c1.toNat - '0'.toNat)
      if ret > 15 then .error .IMM_OVERFLOW
      else .ok ret

/-- `ZC_parseImm` from `zasmc.c` (lines 108-118): a leading `0` selects the
base (`0x` hex, `0b` binary, bare `0` is zero, anything else is a base
error); otherwise decimal. -/
def ZC_parseImm (t : ZC_Token) : Except ZC_ErrE Nat :=
  let s := t.str
  if strAt s 0 = '0' then
    if strAt s 1 = 'x' then ZC_parseHex (s.drop 2)
    else if strAt s 1 = 'b' then ZC_parseBinary (s.drop 2)
    else if strAt s 1 = nulChar then .ok 0
    else .error .IMM_BASE
  else ZC_parseDecimal s

/-- `g_ZA_OpNames` from `zasm.c`: the seven 3-letter mnemonics, indexed by
`ZA_Op_E`. -/
def g_ZA_OpNames : List (List Char) :=
  [['m','o','v'], ['l','d','i'], ['j','e','z'], ['j','n','z'],
   ['j','n','i'], ['h','l','t'], ['r','s','t']]

/-- `g_ZA_RegNames` from `zasm.c`: `"acgmxynpbjlsdz"`, indexed by
`ZA_Reg_E` (a=Address 0, c=Conditional 1, g=General 2, m=Memory 3,
x=OperandX 4, y=OperandY 5, n=Number 6, p=ProgramCounter 7, b=Buttons 8,
j=Jump 9, l=LeftShift 10, s=Sum 11, d=Difference 12, z=Zero 13). -/
def g_ZA_RegNames : List Char :=
  ['a','c','g','m','x','y','n','p','b','j','l','s','d','z']

/-- The lookup loop of `ZC_parseOp`: find the first index whose 3-byte name
equals (`memcmp`) the first three bytes of the token. -/
def ZC_opIndex (c0 c1 c2 : Char) : List (List Char) → Nat → Option Nat
  | [], _ => none
  | name :: rest, i =>
      if [c0, c1, c2] = name then some i else ZC_opIndex c0 c1 c2 rest (i + 1)

/-- Index `i` of `ZA_Op_E` as an operation tag. -/
def ZA_opOfIndex : Nat → ZA_Op
  | 0 => .mov | 1 => .ldi | 2 => .jez | 3 => .jnz
  | 4 => .jni | 5 => .hlt | 6 => .rst | _ => .mov

/-- `ZC_parseOp` from `zasmc.c` (lines 30-40): a token of more than three
characters (`str[3] != 0`) is an operation error; otherwise the token's
first three bytes must `memcmp`-match one of the seven mnemonics. -/
def ZC_parseOp (t : ZC_Token) : Except ZC_ErrE ZA_Op :=
  if strAt t.str 3 ≠ nulChar then .error .OP
  else
    match ZC_opIndex (strAt t.str 0) (strAt t.str 1) (strAt t.str 2)
        g_ZA_OpNames 0 with
    | some i => .ok (ZA_opOfIndex i)
    | none => .error .OP

/-- The lookup loop of `ZC_parseReg`: find the index of a character in
`g_ZA_RegNames`. -/
def ZC_regIndex (c : Char) : List Char → Nat → Option Nat
  | [], _ => none
  | r :: rest, i => if c = r then some i else ZC_regIndex c rest (i + 1)

/-- `ZC_parseReg` from `zasmc.c` (lines 42-52): a register token is a
single character (`str[1] != 0` is an error) looked up in
`g_ZA_RegNames`. -/
def ZC_parseReg (t : ZC_Token) : Except ZC_ErrE Nat :=
  if strAt t.str 1 ≠ nulChar then .error .REG
  else
    match ZC_regIndex (strAt t.str 0) g_ZA_RegNames 0 with
    | some i => .ok i
    | none => .error .REG

/-- A tokenized line, `ZC_Line_T` in `zasmc.h`: three token slots
(zero-initialised: unstored slots are the empty token with clear flags). -/
structure ZC_Line where
  t0 : ZC_Token
  t1 : ZC_Token
  t2 : ZC_Token
deriving DecidableEq, Repr

/-- `ZC_tokenEnd` from `zasmc.c`: a token that carries the end-of-line or
end-of-file flag ends the line. -/
def ZC_tokenEnd (t : ZC_Token) : Bool := t.eol || t.eof

/-- `ZC_lineSize` from `zasmc.c` (lines 124-130): one plus the index of
the first flagged token.  When no token is flagged the C code
`assert(false)` (unreachable on tokenizer output, every produced line has a
flagged token); this model returns 4 there, a size matching no operation
arity, and every theorem below stays inside flagged lines. -/
def ZC_lineSize (l : ZC_Line) : Nat :=
  if ZC_tokenEnd l.t0 then 1
  else if ZC_tokenEnd l.t1 then 2
  else if ZC_tokenEnd l.t2 then 3
  else 4

/-- An empty token with clear flags (a zero-initialised `ZC_Token_T`). -/
def zeroTok : ZC_Token := ⟨[], false, false⟩

/-- `ZC_parse` from `zasmc.c` (lines 132-168): parse the first token as the
operation, then read the remaining tokens per the operation's arity; a
size mismatch is `ZC_ERR_INST_FMT`.  The assignment
`inst.val.ldi.i = ZC_parseImm(...)` stores into a 4-bit bit-field, hence
the `lowNibble` (value mod 16) on both immediate forms. -/
def ZC_parse (l : ZC_Line) : Except ZC_ErrE ZA_Inst := do
  let op ← ZC_parseOp l.t0
  match op with
  | .mov =>
      if ZC_lineSize l = 3 then do
        let r1 ← ZC_parseReg l.t1
        let r2 ← ZC_parseReg l.t2
        pure (.mov r1 r2)
      else .error .INST_FMT
  | .ldi =>
      if ZC_lineSize l = 3 then do
        let r ← ZC_parseReg l.t1
        let v ← ZC_parseImm l.t2
        pure (.ldi r (lowNibble v))
      else .error .INST_FMT
  | .jez =>
      if ZC_lineSize l = 2 then do
        let j ← ZC_parseReg l.t1
        pure (.jez j)
      else .error .INST_FMT
  | .jnz =>
      if ZC_lineSize l = 2 then do
        let j ← ZC_parseReg l.t1
        pure (.jnz j)
      else .error .INST_FMT
  | .jni =>
      if ZC_lineSize l = 2 then do
        let v ← ZC_parseImm l.t1
        pure (.jni (lowNibble v))
      else .error .INST_FMT
  | .hlt =>
      if ZC_lineSize l = 1 then pure .hlt else .error .INST_FMT
  | .rst =>
      if ZC_lineSize l = 1 then pure .rst else .error .INST_FMT

/-- Counterexample to C5 as stated: the immediate token `"0b1111"` parses
to 30, not 15 — `ZC_parseBinary` shifts the accumulator once more after
or-ing in the final digit, so every binary literal is doubled. -/
theorem C5_imm_table_counterexample :
    ZC_parseImm (mkTok "0b1111" true false) = .ok 30 ∧
      ZC_parseImm (mkTok "0b1111" true false) ≠ .ok 15 := by decide

/-- C5 amended: the immediate-token parser maps `"0"` to 0, `"0xF"` to 15,
`"0b1111"` to 30 (the binary parser returns twice the written value),
`"15"` to 15, and reports `ZC_ERR_IMM_OVERFLOW` for `"16"`. -/
theorem C5_imm_table :
    ZC_parseImm (mkTok "0" true false) = .ok 0 ∧
      ZC_parseImm (mkTok "0xF" true false) = .ok 15 ∧
      ZC_parseImm (mkTok "0b1111" true false) = .ok 30 ∧
      ZC_parseImm (mkTok "15" true false) = .ok 15 ∧
      ZC_parseImm (mkTok "16" true false) = .error .IMM_OVERFLOW := by decide

/-- C10: on a LoadImmediate line whose register and immediate tokens both
parse without error, the parser builds `ldi` carrying the parsed value
mod 16 — the 4-bit bit-field silently truncates, no overflow error is
raised. -/
theorem C10_ldi_immediate_truncated_mod16 (l : ZC_Line) (r v : Nat)
    (hop : ZC_parseOp l.t0 = .ok .ldi)
    (hsz : ZC_lineSize l = 3)
    (hr : ZC_parseReg l.t1 = .ok r)
    (hv : ZC_parseImm l.t2 = .ok v) :
    ZC_parse l = .ok (.ldi r (lowNibble v)) ∧ (lowNibble v).val = v % 16 := by
  refine ⟨?_, rfl⟩
  unfold ZC_parse
  simp [hop, hsz, hr, hv, Bind.bind, Except.bind, Pure.pure, Except.pure]

/-- Witness for C10 at the concrete line `ldi a 0b1111`: the immediate
token parses to 30 with no error and the built instruction carries
30 mod 16 = 14. -/
theorem C10_ldi_immediate_truncated_mod16_witness :
    ZC_parse ⟨mkTok "ldi" false false, mkTok "a" false false,
        mkTok "0b1111" true false⟩ = .ok (.ldi 0 (lowNibble 30)) ∧
      (lowNibble 30).val = 30 % 16 :=
  C10_ldi_immediate_truncated_mod16
    ⟨mkTok "ldi" false false, mkTok "a" false false, mkTok "0b1111" true false⟩
    0 30 (by decide) (by decide) (by decide) (by decide)

/-- Result of one `ZC_readChar` call: the (possibly flag-updated) token,
the character read (lowercased when the call did not stop), the rest of
the input stream, the C return value (`true` = stop reading the token),
and the error out-parameter. -/
structure RCRes where
  tok : ZC_Token
  c : Char
  rest : List Char
  stop : Bool
  err : Option ZC_ErrE
deriving Repr

/-- `ZC_clearLine` from `zasmc.c`: consume characters through the next
newline; the Bool is true when the stream ended first (`STM_ERR_EOF`). -/
def ZC_clearLine : List Char → List Char × Bool
  | [] => ([], true)
  | c :: r => if c = '\n' then (r, false) else ZC_clearLine r

/-- `ZC_readChar` from `zasmc.c` (lines 188-220, the `src/src` copy): end
of stream sets both token flags; a byte with the sign bit set (`*c < 0`)
is `ZC_ERR_INVAL_CHAR`; a newline sets `eol`; `;` consumes the rest of the
line and sets `eol` and `eof`; anything else is lowercased and returned
for the caller to store. -/
def ZC_readChar (input : List Char) (tok : ZC_Token) : RCRes :=
  match input with
  | [] => ⟨{ tok with eol := true, eof := true }, nulChar, [], true, none⟩
  | c :: rest =>
      if 128 ≤ c.toNat then ⟨tok, c, rest, true, some .INVAL_CHAR⟩
      else if c = '\n' then ⟨{ tok with eol := true }, c, rest, true, none⟩
      else if c = ';' then
        ⟨{ tok with eol := true, eof := true }, c, (ZC_clearLine rest).1,
          true, none⟩
      else ⟨tok, ZC_toLower c, rest, false, none⟩

/-- `ZC_readChar` as in the second copy of `zasmc.c` (`part_005` lines
302-336): identical except that on `;` the `eof` flag is only set when the
comment ran into end of stream. -/
def ZC_readCharP5 (input : List Char) (tok : ZC_Token) : RCRes :=
  match input with
  | [] => ⟨{ tok with eol := true, eof := true }, nulChar, [], true, none⟩
  | c :: rest =>
      if 128 ≤ c.toNat then ⟨tok, c, rest, true, some .INVAL_CHAR⟩
      else if c = '\n' then ⟨{ tok with eol := true }, c, rest, true, none⟩
      else if c = ';' then
        let (rest2, sawEof) := ZC_clearLine rest
        if sawEof then
          ⟨{ tok with eol := true, eof := true }, c, rest2, true, none⟩
        else ⟨{ tok with eol := true }, c, rest2, true, none⟩
      else ⟨tok, ZC_toLower c, rest, false, none⟩

/-- The leading whitespace-skipping `while` loop of `ZC_readToken`:
either the read stopped (left: finished token, rest, error) or a
non-whitespace character was found (right).  `rc` is the `ZC_readChar`
variant in use. -/
def ZC_skipWs (rc : List Char → ZC_Token → RCRes) :
    List Char → (ZC_Token × List Char × Option ZC_ErrE) ⊕ (Char × List Char)
  | [] =>
      let r := rc [] zeroTok
      .inl (r.tok, r.rest, r.err)
  | c :: rest =>
      let r := rc (c :: rest) zeroTok
      if r.stop then .inl (r.tok, r.rest, r.err)
      else if ZC_isWhitespace r.c then ZC_skipWs rc rest
      else .inr (r.c, r.rest)

/-- The storing loop of `ZC_readToken` (`for (i = 1; i < 6; ++i)` plus the
seventh read): with fuel `n+1` a plain character is appended to the token;
with fuel 0 (six characters stored) a seventh plain character is
`ZC_ERR_TOKEN_LEN`. -/
def ZC_fill (rc : List Char → ZC_Token → RCRes) :
    Nat → ZC_Token → List Char → ZC_Token × List Char × Option ZC_ErrE
  | 0, tok, input =>
      let r := rc input tok
      if r.stop then (r.tok, r.rest, r.err)
      else if ZC_isWhitespace r.c then (r.tok, r.rest, r.err)
      else (r.tok, r.rest, some .TOKEN_LEN)
  | n + 1, tok, input =>
      let r := rc input tok
      if r.stop then (r.tok, r.rest, r.err)
      else if ZC_isWhitespace r.c then (r.tok, r.rest, r.err)
      else ZC_fill rc n { r.tok with str := r.tok.str ++ [r.c] } r.rest

/-- `ZC_readToken` from `zasmc.c` (lines 222-239, identical in both
copies): skip whitespace, store the first character, then up to five more
(fuel 5), with the seventh-character check at fuel 0. -/
def ZC_readToken (rc : List Char → ZC_Token → RCRes) (input : List Char) :
    ZC_Token × List Char × Option ZC_ErrE :=
  match ZC_skipWs rc input with
  | .inl res => res
  | .inr (c, rest) => ZC_fill rc 5 ⟨[c], false, false⟩ rest

/-- Copy the end flags of `flags` onto `t` (the
`line.tokens[i-1].eol = token.eol; ... .eof = token.eof` patch in
`ZC_tokenize`). -/
def ZC_patchEnd (t flags : ZC_Token) : ZC_Token :=
  { t with eol := flags.eol, eof := flags.eof }

/-- The `for (i = 0; i < 3; ++i)` loop of `ZC_tokenize`, identical in both
copies: read up to three tokens, returning early (left) on an error or on
a line-ending token — an empty line-ending token donates its flags to the
previous token; falling through (right) means three unterminated tokens
were stored. -/
def ZC_tokenize3 (rc : List Char → ZC_Token → RCRes) (input : List Char) :
    (ZC_Line × List Char × Option ZC_ErrE) ⊕ (ZC_Line × List Char) :=
  let (t0, in1, e0) := ZC_readToken rc input
  if e0.isSome then .inl (⟨zeroTok, zeroTok, zeroTok⟩, in1, e0)
  else if ZC_tokenEnd t0 then .inl (⟨t0, zeroTok, zeroTok⟩, in1, none)
  else
    let (t1, in2, e1) := ZC_readToken rc in1
    if e1.isSome then .inl (⟨t0, zeroTok, zeroTok⟩, in2, e1)
    else if ZC_tokenEnd t1 then
      if t1.str = [] then .inl (⟨ZC_patchEnd t0 t1, t1, zeroTok⟩, in2, none)
      else .inl (⟨t0, t1, zeroTok⟩, in2, none)
    else
      let (t2, in3, e2) := ZC_readToken rc in2
      if e2.isSome then .inl (⟨t0, t1, zeroTok⟩, in3, e2)
      else if ZC_tokenEnd t2 then
        if t2.str = [] then .inl (⟨t0, ZC_patchEnd t1 t2, t2⟩, in3, none)
        else .inl (⟨t0, t1, t2⟩, in3, none)
      else .inr (⟨t0, t1, t2⟩, in3)

/-- `ZC_tokenize` from `src/src/zasmc.c` (lines 241-264).  After three
unterminated tokens a fourth token is read, and the function returns
WITHOUT error whenever that read itself succeeded
(`if (err->err == ZC_ERR_OK) return line;`) — the fourth token is silently
discarded; `ZC_ERR_LINE_LEN` is only reached when the fourth read failed
with a non-empty token. -/
def ZC_tokenize (input : List Char) : ZC_Line × List Char × Option ZC_ErrE :=
  match ZC_tokenize3 ZC_readChar input with
  | .inl res => res
  | .inr (line, in3) =>
      let (t3, in4, e3) := ZC_readToken ZC_readChar in3
      if e3 = none then (line, in4, none)
      else if ZC_tokenEnd t3 ∧ t3.str = [] then
        ({ line with t2 := ZC_patchEnd line.t2 t3 }, in4, e3)
      else (line, in4, some .LINE_LEN)

/-- `ZC_tokenize` from the second copy of `zasmc.c` (`part_005` lines
357-380): identical except the fourth-token check reads
`if (err->err != ZC_ERR_OK) return line;`, so a successfully read
non-empty fourth token is `ZC_ERR_LINE_LEN`. -/
def ZC_tokenizeP5 (input : List Char) :
    ZC_Line × List Char × Option ZC_ErrE :=
  match ZC_tokenize3 ZC_readCharP5 input with
  | .inl res => res
  | .inr (line, in3) =>
      let (t3, in4, e3) := ZC_readToken ZC_readCharP5 in3
      if e3.isSome then (line, in4, e3)
      else if ZC_tokenEnd t3 ∧ t3.str = [] then
        ({ line with t2 := ZC_patchEnd line.t2 t3 }, in4, none)
      else (line, in4, some .LINE_LEN)

/-- C9, evaluated at the boundary inputs.  A 6-character token is accepted
and a 7-character token is `ZC_ERR_TOKEN_LEN` (both copies of the
tokenizer agree; shown on the `src/src` copy).  A 4th token on one line is
`ZC_ERR_LINE_LEN` in the `part_005` copy, but the `src/src` copy — whose
4th-token check reads `==` where `part_005` reads `!=` — returns the
three-token line with NO error, silently discarding the 4th token `d`. -/
theorem C9_tokenizer_boundary :
    ((ZC_tokenize "abcdef\n".toList).1.t0 = mkTok "abcdef" true false ∧
      (ZC_tokenize "abcdef\n".toList).2.2 = none) ∧
    (ZC_tokenize "abcdefg\n".toList).2.2 = some .TOKEN_LEN ∧
    (ZC_tokenizeP5 "a b c d\n".toList).2.2 = some .LINE_LEN ∧
    ((ZC_tokenize "a b c d\n".toList).2.2 = none ∧
      (ZC_tokenize "a b c d\n".toList).1 =
        ⟨mkTok "a" false false, mkTok "b" false false,
          mkTok "c" false false⟩) := by decide

/-- The virtual machine state, `ZS_State_T` in `zasms.h`: 256 bytes of
memory, 256 bytes of program ROM, storage for registers 0-6 (`uint8_t
r[7]`), the Buttons value `b`, the program counter and the halt flag.
Byte arrays are modelled as functions `Nat → Nat`; every value a C
execution can store is `< 256`, enforced at each write by `storeByte`. -/
structure ZS_State where
  mem : Nat → Nat
  rom : Nat → Nat
  r : Nat → Nat
  b : Nat
  pc : Nat
  halted : Bool

/-- A store into a `uint8_t` array cell: `arr[i] = v` keeps the low byte
of `v`. -/
def storeByte (f : Nat → Nat) (i v : Nat) : Nat → Nat :=
  fun j => if j = i then v % 256 else f j

/-- The C expression `(uint8_t)(x - y)` on `uint8_t` operands: subtraction
in `int`, then truncation to 8 bits. -/
def ZS_dsub (x y : Nat) : Nat := (((x : Int) - (y : Int)) % 256).toNat

/-- `ZS_getReg` from `zasms.c` (`part_005` lines 506-541 and the identical
second copy at lines 768-796): registers 0,1,2,4,5 (A,C,G,X,Y) read their
storage slot; B (8) reads the Buttons value; D (12) is X−Y mod 256; J (9)
is `C != 0`; L (10) is `(uint8_t)(A << 4)`; M (3) reads memory at A's
value; P (7) reads the program counter; S (11) is X+Y mod 256; N (6) and
Z (13) read 0.  The `default: assert(false)` arm (register codes ≥ 14,
unreachable: the decoder never produces them) is modelled as 0. -/
def ZS_getReg (s : ZS_State) : Nat → Nat
  | 0 => s.r 0
  | 1 => s.r 1
  | 2 => s.r 2
  | 4 => s.r 4
  | 5 => s.r 5
  | 8 => s.b
  | 12 => ZS_dsub (s.r 4) (s.r 5)
  | 9 => if s.r 1 ≠ 0 then 1 else 0
  | 10 => (s.r 0 <<< 4) % 256
  | 3 => s.mem (s.r 0)
  | 7 => s.pc
  | 11 => (s.r 4 + s.r 5) % 256
  | 6 => 0
  | 13 => 0
  | _ => 0

/-- `ZS_resetState` from `zasms.c`: `memset(state->r, 0, sizeof(state->r))`
zeroes the register storage and touches nothing else. -/
def ZS_resetState (s : ZS_State) : ZS_State := { s with r := fun _ => 0 }

/-- The `++state->pc` at the end of `ZS_exec`: a `uint8_t` increment,
wrapping 255 → 0. -/
def ZS_advance (s : ZS_State) : ZS_State := { s with pc := (s.pc + 1) % 256 }

/-- `ZS_exec` from `zasms.c` (`part_005` lines 559-609, the documented
copy): no-op when halted; otherwise fetch `rom[pc]`, decode with
`ZD_parse`, and execute.  MOV routes a Memory (3) destination into
`mem[r[A]]` and any other destination into its register slot; LDI always
writes the register slot `r[ldi.r]`; JEZ/JNZ/JNI load the program counter
and return (no advance) when taken; HLT sets the halt flag and returns;
RST zeroes the registers and falls through; every fall-through path ends
in `++state->pc`.  (The second, stale copy of `ZS_exec` at lines 802-841
differs in one place: its MOV writes `r[r1]` unconditionally, without the
Memory routing; it is not modelled here.) -/
def ZS_exec (s : ZS_State) : ZS_State :=
  if s.halted then s
  else
    match ZD_parse (s.rom s.pc) with
    | .mov r1 r2 =>
        if r1 = 3 then
          ZS_advance { s with mem := storeByte s.mem (s.r 0) (ZS_getReg s r2) }
        else ZS_advance { s with r := storeByte s.r r1 (ZS_getReg s r2) }
    | .ldi r i => ZS_advance { s with r := storeByte s.r r i.val }
    | .jez j =>
        if s.r 1 = 0 then { s with pc := ZS_getReg s j % 256 }
        else ZS_advance s
    | .jnz j =>
        if s.r 1 ≠ 0 then { s with pc := ZS_getReg s j % 256 }
        else ZS_advance s
    | .jni imm =>
        if s.r 1 ≠ 0 then { s with pc := imm.val }
        else ZS_advance s
    | .hlt => { s with halted := true }
    | .rst => ZS_advance (ZS_resetState s)

/-- The register read table exactly as the spec's §3 table words it (the
second definition of a refinement pair, to be compared with `ZS_getReg`):
code 3 Memory reads memory at Address's value, 6 Number reads 0, 7 reads
the program counter, 8 Buttons, 9 Jump is 1 iff Conditional ≠ 0, 10
LeftShift is `(Address & 0xF) << 4`, 11 Sum and 12 Difference are 8-bit
wraparound sums/differences of OperandX and OperandY, 13 Zero reads 0. -/
def ZS_readSpecTable (s : ZS_State) : Nat → Nat
  | 0 => s.r 0
  | 1 => s.r 1
  | 2 => s.r 2
  | 3 => s.mem (s.r 0)
  | 4 => s.r 4
  | 5 => s.r 5
  | 6 => 0
  | 7 => s.pc
  | 8 => s.b
  | 9 => if s.r 1 ≠ 0 then 1 else 0
  | 10 => (s.r 0 % 16) * 16
  | 11 => (s.r 4 + s.r 5) % 256
  | 12 => ZS_dsub (s.r 4) (s.r 5)
  | 13 => 0
  | _ => 0

/-- `ZS_getReg` agrees with the spec's §3 register table on every register
code 0..13 (the only syntactic difference is LeftShift:
`(A << 4) % 256 = (A & 0xF) << 4`). -/
theorem ZS_getReg_eq_specTable (s : ZS_State) (reg : Nat) (h : reg ≤ 13) :
    ZS_getReg s reg = ZS_readSpecTable s reg := by
  interval_cases reg <;> simp [ZS_getReg, ZS_readSpecTable]
  rw [Nat.shiftLeft_eq, show ((2:Nat)^4 : Nat) = 16 by norm_num,
    show (256 : Nat) = 16 * 16 by norm_num, Nat.mul_mod_mul_right]

/-- A concrete all-zero machine whose ROM holds the single byte `0xB5`,
the encoding of `ldi m 5` (LoadImmediate, destination Memory, immediate
5). -/
def C3state : ZS_State :=
  { mem := fun _ => 0, rom := fun a => if a = 0 then 0xB5 else 0,
    r := fun _ => 0, b := 0, pc := 0, halted := false }

/-- Counterexample to C3 as stated: executing `ldi m 5` on `C3state` does
NOT write 5 into memory at the Address register's value (that cell still
reads 0); the immediate lands in the separate register-storage slot
`r[3]`. -/
theorem C3_ldi_memory_routing_counterexample :
    ZD_parse (C3state.rom C3state.pc) = .ldi 3 5 ∧
      (ZS_exec C3state).mem (C3state.r 0) = 0 ∧
      (ZS_exec C3state).mem (C3state.r 0) ≠ 5 ∧
      (ZS_exec C3state).r 3 = 5 := by decide

/-- C3 amended: a LoadImmediate always writes its 4-bit immediate into the
register-storage slot of its destination — also when the destination is
Memory (code 3), where it lands in the otherwise unused slot `r[3]` rather
than in `memory[Address]`; memory, the halt flag are untouched and the
program counter advances. -/
theorem C3_ldi_writes_register_slot (s : ZS_State) (r : Nat) (i : Fin 16)
    (hh : s.halted = false)
    (hd : ZD_parse (s.rom s.pc) = .ldi r i) :
    (ZS_exec s).r = storeByte s.r r i.val ∧
      (ZS_exec s).mem = s.mem ∧
      (ZS_exec s).pc = (s.pc + 1) % 256 ∧
      (ZS_exec s).halted = s.halted := by
  unfold ZS_exec ZS_advance
  simp [hh, hd]

/-- Witness for the amended C3 at `C3state` (destination Memory, immediate
5). -/
theorem C3_ldi_writes_register_slot_witness :
    (ZS_exec C3state).r = storeByte C3state.r 3 (5 : Fin 16).val ∧
      (ZS_exec C3state).mem = C3state.mem ∧
      (ZS_exec C3state).pc = (C3state.pc + 1) % 256 ∧
      (ZS_exec C3state).halted = C3state.halted :=
  C3_ldi_writes_register_slot C3state 3 5 rfl (by decide)

/-- C4: when the machine executes a decoded Move, the source is read by
`ZS_getReg`, which agrees with the spec's §3 table on all register codes
0..13 (in particular source Memory reads `memory[Address]`); a Memory (3)
destination routes the value into `memory[Address]`, any other destination
into its register-storage slot. -/
theorem C4_move_semantics (s : ZS_State) (r1 r2 : Nat)
    (hh : s.halted = false)
    (hd : ZD_parse (s.rom s.pc) = .mov r1 r2) :
    ZS_getReg s 3 = s.mem (s.r 0) ∧
      (∀ reg, reg ≤ 13 → ZS_getReg s reg = ZS_readSpecTable s reg) ∧
      (r1 = 3 →
        (ZS_exec s).mem = storeByte s.mem (s.r 0) (ZS_getReg s r2) ∧
          (ZS_exec s).r = s.r) ∧
      (r1 ≠ 3 →
        (ZS_exec s).r = storeByte s.r r1 (ZS_getReg s r2) ∧
          (ZS_exec s).mem = s.mem) := by
  refine ⟨rfl, fun reg h => ZS_getReg_eq_specTable s reg h, ?_, ?_⟩
  · intro h3
    subst h3
    unfold ZS_exec ZS_advance
    simp [hh, hd]
  · intro h3
    unfold ZS_exec ZS_advance
    simp [hh, hd, h3]

/-- A concrete all-zero machine whose ROM holds the single byte `0x35`,
the encoding of `mov m y` (Move, destination Memory, source OperandY). -/
def C4state : ZS_State :=
  { mem := fun _ => 0, rom := fun a => if a = 0 then 0x35 else 0,
    r := fun _ => 0, b := 0, pc := 0, halted := false }

/-- Witness for C4 at `C4state` (`mov m y`): the Memory destination routes
the moved value into memory at the Address register's value. -/
theorem C4_move_semantics_witness :
    (ZS_exec C4state).mem = storeByte C4state.mem (C4state.r 0)
        (ZS_getReg C4state 5) ∧
      (ZS_exec C4state).r = C4state.r :=
  (C4_move_semantics C4state 3 5 rfl (by decide)).2.2.1 rfl

/-- A concrete machine with nonzero register contents whose ROM is filled
with `0x7F` (`rst`) bytes. -/
def C7state : ZS_State :=
  { mem := fun _ => 0, rom := fun _ => 0x7F,
    r := fun _ => 7, b := 0, pc := 0, halted := false }

/-- Counterexample to C7 as stated: executing a Reset instruction DOES
affect the program counter — `ZS_exec` performs the reset transition and
then falls through to the normal `++pc` advance, so the program counter
moves from 0 to 1. -/
theorem C7_reset_pc_counterexample :
    ZD_parse (C7state.rom C7state.pc) = .rst ∧
      C7state.pc = 0 ∧ (ZS_exec C7state).pc = 1 ∧
      (ZS_exec C7state).pc ≠ C7state.pc := by decide

/-- C7 amended: executing Reset twice consecutively yields the same
register storage as executing it once (registers 0-6 all zeroed); memory
and the halt flag are unaffected by either execution; the program counter
is NOT unaffected — each execution advances it by 1 (mod 256), because the
reset transition `ZS_resetState` (which by itself touches only the
register storage) falls through to the normal advance. -/
theorem C7_reset_idempotent (s : ZS_State)
    (hh : s.halted = false)
    (h1 : ZD_parse (s.rom s.pc) = .rst)
    (h2 : ZD_parse (s.rom ((s.pc + 1) % 256)) = .rst) :
    (ZS_exec s).r = (fun _ => 0) ∧
      (ZS_exec (ZS_exec s)).r = (ZS_exec s).r ∧
      (ZS_exec s).mem = s.mem ∧ (ZS_exec (ZS_exec s)).mem = s.mem ∧
      (ZS_exec s).halted = s.halted ∧
      (ZS_exec (ZS_exec s)).halted = s.halted ∧
      (ZS_exec s).pc = (s.pc + 1) % 256 ∧
      (ZS_exec (ZS_exec s)).pc = ((s.pc + 1) % 256 + 1) % 256 := by
  have e1 : ZS_exec s = { s with r := fun _ => 0, pc := (s.pc + 1) % 256 } := by
    unfold ZS_exec ZS_resetState ZS_advance
    simp [hh, h1]
  have e2 : ZS_exec (ZS_exec s) =
      { s with r := fun _ => 0, pc := ((s.pc + 1) % 256 + 1) % 256 } := by
    rw [e1]
    unfold ZS_exec ZS_resetState ZS_advance
    simp [hh, h2]
  rw [e2, e1]
  exact ⟨rfl, rfl, rfl, rfl, rfl, rfl, rfl, rfl⟩

/-- Witness for the amended C7 at `C7state` (an all-`rst` ROM). -/
theorem C7_reset_idempotent_witness :
    (ZS_exec C7state).r = (fun _ => 0) ∧
      (ZS_exec (ZS_exec C7state)).r = (ZS_exec C7state).r ∧
      (ZS_exec C7state).mem = C7state.mem ∧
      (ZS_exec (ZS_exec C7state)).mem = C7state.mem ∧
      (ZS_exec C7state).halted = C7state.halted ∧
      (ZS_exec (ZS_exec C7state)).halted = C7state.halted ∧
      (ZS_exec C7state).pc = (C7state.pc + 1) % 256 ∧
      (ZS_exec (ZS_exec C7state)).pc = ((C7state.pc + 1) % 256 + 1) % 256 :=
  C7_reset_idempotent C7state rfl (by decide) (by decide)

/-- C8: a machine whose program store begins `[0x7F, 0x6F]` (Reset, Halt),
stepped twice from program counter 0 in the Running state, ends with the
halt flag set and the program counter equal to 1 — the position of the
Halt byte — not 2. -/
theorem C8_halt_does_not_advance (s : ZS_State)
    (hh : s.halted = false) (hpc : s.pc = 0)
    (h0 : s.rom 0 = 0x7F) (h1 : s.rom 1 = 0x6F) :
    (ZS_exec (ZS_exec s)).halted = true ∧ (ZS_exec (ZS_exec s)).pc = 1 := by
  have d0 : ZD_parse (s.rom 0) = .rst := by
    rw [h0]; decide
  have e1 : ZS_exec s = { s with r := fun _ => 0, pc := 1 } := by
    unfold ZS_exec ZS_resetState ZS_advance
    simp [hh, hpc, d0]
  have d1 : ZD_parse (s.rom 1) = .hlt := by
    rw [h1]; decide
  have e2 : ZS_exec (ZS_exec s) =
      { s with r := fun _ => 0, pc := 1, halted := true } := by
    rw [e1]
    unfold ZS_exec
    simp [hh, d1]
  rw [e2]
  exact ⟨rfl, rfl⟩

/-- The program store `[0x7F, 0x6F]` of the C8 scenario, loaded into an
otherwise all-zero running machine. -/
def C8state : ZS_State :=
  { mem := fun _ => 0,
    rom := fun a => if a = 0 then 0x7F else if a = 1 then 0x6F else 0,
    r := fun _ => 0, b := 0, pc := 0, halted := false }

/-- Witness for C8 at the concrete machine `C8state`. -/
theorem C8_halt_does_not_advance_witness :
    (ZS_exec (ZS_exec C8state)).halted = true ∧
      (ZS_exec (ZS_exec C8state)).pc = 1 :=
  C8_halt_does_not_advance C8state rfl rfl (by decide) (by decide)
